import Mathlib

/-!
# Verification of the swim-training-app menu storage module

Shallow embedding of `src/lib/kv-storage.ts` (the menu repository over a
pointer store and a blob store) together with the JavaScript string/number
builtins it relies on (`parseInt`, `Number.prototype.toString`,
`String.prototype.includes`, `Array.prototype.join`, truthiness defaults).

Modelling conventions:
* JS numbers that the code treats as integral quantities (durations, times,
  set counts) are modelled as `Nat`/`Int`; the float literals `0.8`/`1.2`
  in the duration window are modelled exactly as the rationals `4/5`/`6/5`.
* `async` failure (a rejected promise / an exception caught by
  `handleBlobError`) is modelled with `Option`/`Except`; a blob URL that is
  missing from the store plays the role of a failed fetch.
* The two external collaborators are a record `Store`: the pointer-store
  cell `pointer` (Redis key `menu:indexUrl`), and the blob store split by
  the type of document held at a URL (`indexBlobs`, `menuBlobs`).
* Nondeterministic inputs (the wall clock used for `createdAt`, the URL the
  blob store returns for a written path, which writes fail) are parameters
  (`now`, `Env.urlOf`, `Env.blobWriteFails`, `Env.pointerSetFails`).
* `new Date(s).getTime()` is an uninterpreted parameter
  `getTime : Option String → Int` (applied to `none` when the entry has no
  metadata, mirroring `new Date(undefined)`).
-/

namespace SwimApp

/-! ## JavaScript string/number builtins -/

/-- Whitespace characters skipped by JS `parseInt` (the common ones). -/
def jsWhitespace (c : Char) : Bool :=
  c = ' ' || c = '\t' || c = '\n' || c = '\r' ||
  c = Char.ofNat 11 || c = Char.ofNat 12 || c = Char.ofNat 0xA0 || c = Char.ofNat 0xFEFF

/-- The numeric value of a decimal digit character, if it is one. -/
def digitVal (c : Char) : Option Nat :=
  if '0' ≤ c ∧ c ≤ '9' then some (c.toNat - 48) else none

/-- The numeric value of a hexadecimal digit character, if it is one. -/
def hexVal (c : Char) : Option Nat :=
  if '0' ≤ c ∧ c ≤ '9' then some (c.toNat - 48)
  else if 'a' ≤ c ∧ c ≤ 'f' then some (c.toNat - 87)
  else if 'A' ≤ c ∧ c ≤ 'F' then some (c.toNat - 55)
  else none

/-- Consume a maximal run of decimal digits, folding them onto `acc`;
returns the value and the unconsumed suffix (JS `parseInt` ignores the
suffix). -/
def parseDigits (acc : Nat) : List Char → Nat × List Char
  | [] => (acc, [])
  | c :: cs =>
    match digitVal c with
    | some d => parseDigits (acc * 10 + d) cs
    | none => (acc, c :: cs)

/-- Consume a maximal run of hex digits, folding them onto `acc`. -/
def parseHexDigits (acc : Nat) : List Char → Nat
  | [] => acc
  | c :: cs =>
    match hexVal c with
    | some d => parseHexDigits (acc * 16 + d) cs
    | none => acc

/-- Hex tail of JS `parseInt` after a `0x`/`0X` prefix: at least one hex
digit required, garbage after the run ignored. -/
def parseHex : List Char → Option Nat
  | [] => none
  | c :: cs => if (hexVal c).isSome then some (parseHexDigits 0 (c :: cs)) else none

/-- Magnitude part of JS `parseInt` (radix auto-detection): a `0x`/`0X`
prefix switches to hex, otherwise a leading decimal digit is required and
the maximal digit run is taken; anything else is `NaN` (`none`). -/
def jsParseNat (cs : List Char) : Option Nat :=
  match cs with
  | [] => none
  | c :: rest =>
    if c = '0' then
      match rest with
      | [] => some 0
      | c2 :: r2 =>
        if c2 = 'x' || c2 = 'X' then parseHex r2
        else some (parseDigits 0 (c :: rest)).1
    else if (digitVal c).isSome then some (parseDigits 0 (c :: rest)).1
    else none

/-- JS `parseInt(s)` (no radix argument): skip leading whitespace, optional
sign, then parse the magnitude; `NaN` is `none`. -/
def jsParseInt (s : String) : Option Int :=
  match s.data.dropWhile jsWhitespace with
  | [] => none
  | c :: rest =>
    if c = '-' then
      match jsParseNat rest with
      | none => none
      | some n => some (-(n : Int))
    else if c = '+' then
      match jsParseNat rest with
      | none => none
      | some n => some ((n : Int))
    else
      match jsParseNat (c :: rest) with
      | none => none
      | some n => some ((n : Int))

/-- Decimal digit character for `d < 10`. -/
def digChar (d : Nat) : Char := Char.ofNat (48 + d)

/-- Decimal digits of `n`, most significant first (never empty). -/
def natDigits (n : Nat) : List Nat :=
  if _h : n < 10 then [n]
  else natDigits (n / 10) ++ [n % 10]
termination_by n
decreasing_by
  exact Nat.div_lt_self (Nat.lt_of_lt_of_le (by norm_num) (Nat.le_of_not_lt _h)) (by norm_num)

/-- JS `Number.prototype.toString()` restricted to naturals: the plain
decimal numeral. -/
def jsNatToString (n : Nat) : String := String.mk ((natDigits n).map digChar)

/-- `sub` occurs at the start of `s` (char-list helper for `includes`). -/
def startsWithL : List Char → List Char → Bool
  | _, [] => true
  | [], _ :: _ => false
  | c :: cs, d :: ds => c == d && startsWithL cs ds

/-- `sub` occurs contiguously somewhere in the second argument. -/
def containsSub (sub : List Char) : List Char → Bool
  | [] => startsWithL [] sub
  | c :: cs => startsWithL (c :: cs) sub || containsSub sub cs

/-- JS `s.includes(sub)`: substring containment (always true for `""`). -/
def jsIncludes (s sub : String) : Bool := containsSub sub.data s.data

/-! ## Data model (`kv-storage.ts` interfaces and the menu types) -/

/-- One exercise line of a menu (`MenuItem` in the shared types). `rest`
may be textual or numeric in the source (`string | number`). -/
structure MenuItem where
  description : String
  distance : String
  sets : Nat
  circle : String
  rest : String ⊕ Nat
  equipment : Option String
  notes : Option String
  time : Nat
deriving DecidableEq, Repr

/-- One section of a menu (`MenuSection`). -/
structure MenuSection where
  name : String
  items : List MenuItem
  totalTime : Nat
deriving DecidableEq, Repr

/-- The full menu document passed to `saveMenu` (`menuData : any`; the
fields below are the ones the module reads, each optional because the
code guards every access with truthiness checks). -/
structure MenuDocument where
  title : Option String
  menu : List MenuSection
  loadLevels : Option (List String)
  duration : Option Nat
  notes : Option String
  totalTime : Option Nat
  intensity : Option String
  targetSkills : Option (List String)
  aiModel : Option String
deriving DecidableEq, Repr

/-- Denormalized summary stored in the index (`MenuMetadata`): every
numeric/list field already stringified. -/
structure MenuMetadata where
  loadLevels : String
  duration : String
  notes : String
  createdAt : String
  totalTime : String
  intensity : String
  targetSkills : List String
  title : String
  aiModel : String
deriving DecidableEq, Repr

/-- Index entry `{id, metadata, menuDataUrl}`. `metadata` is optional
because `searchSimilarMenus` guards on its truthiness. -/
structure IndexEntry where
  id : String
  metadata : Option MenuMetadata
  menuDataUrl : String
deriving DecidableEq, Repr

/-- The index document (`IndexData`). -/
structure IndexData where
  menus : List IndexEntry
deriving DecidableEq, Repr

/-- History record produced by `getMenuHistory`: the entry id with the
metadata spread in unchanged. -/
structure MenuHistoryItem where
  id : String
  metadata : Option MenuMetadata
deriving DecidableEq, Repr

/-- State of the two external stores: the Redis cell `menu:indexUrl` and
the blob store (URL-addressed), split by the type of document held. -/
structure Store where
  pointer : Option String
  indexBlobs : String → Option IndexData
  menuBlobs : String → Option MenuDocument

/-- Environment: which URL the blob store returns for a written path, and
which writes fail (throw). -/
structure Env where
  urlOf : String → String
  blobWriteFails : String → Bool
  pointerSetFails : Bool

def INDEX_FILE_NAME : String := "menus/index.json"

def setMenuBlob (st : Store) (url : String) (doc : MenuDocument) : Store :=
  { st with menuBlobs := fun u => if u = url then some doc else st.menuBlobs u }

def setIndexBlob (st : Store) (url : String) (idx : IndexData) : Store :=
  { st with indexBlobs := fun u => if u = url then some idx else st.indexBlobs u }

/-! ## The module's operations -/

/-- `getIndexData`: read the index URL from Redis (`!indexFileUrl` treats
the empty string as absent), fetch the index blob via `handleBlobError`;
every failure degrades to the empty index. -/
def getIndexData (st : Store) : IndexData :=
  match st.pointer with
  | none => ⟨[]⟩
  | some url =>
    if url = "" then ⟨[]⟩
    else
      match st.indexBlobs url with
      | none => ⟨[]⟩
      | some idx => idx

/-- JS `v || d` for an optional string (`""` is falsy). -/
def jsOrString (v : Option String) (d : String) : String :=
  match v with
  | none => d
  | some s => if s = "" then d else s

/-- `v ? v.toString() : "0"` for an optional numeric field (`0` is falsy,
but stringifies to `"0"` anyway). -/
def natFieldString (v : Option Nat) : String :=
  match v with
  | none => "0"
  | some n => if n = 0 then "0" else jsNatToString n

/-- The metadata `saveMenu` derives from the document (`now` is the result
of `new Date().toISOString()`). -/
def mkMetadata (now : String) (menuData : MenuDocument) : MenuMetadata :=
  { loadLevels :=
      match menuData.loadLevels with
      | none => ""
      | some l => String.intercalate "," l
    duration := natFieldString menuData.duration
    notes := (menuData.notes).getD ""
    createdAt := now
    totalTime := natFieldString menuData.totalTime
    intensity := (menuData.intensity).getD ""
    targetSkills := (menuData.targetSkills).getD []
    title := jsOrString menuData.title "Untitled"
    aiModel := jsOrString menuData.aiModel "Unknown" }

/-- `saveMenu`: write the document blob at `menus/{id}.json`, reload the
index, append `{id, metadata, url}`, write the index blob at the fixed
path, publish its URL to Redis. Each write may throw (`Except.error`);
nothing on this path is swallowed. -/
def saveMenu (env : Env) (st : Store) (now menuId : String) (menuData : MenuDocument) :
    Except Unit Store :=
  let menuPath := "menus/" ++ menuId ++ ".json"
  if env.blobWriteFails menuPath then Except.error ()
  else
    let menuDataUrl := env.urlOf menuPath
    let st1 := setMenuBlob st menuDataUrl menuData
    let indexData := getIndexData st1
    let metadata := mkMetadata now menuData
    let newIndex : IndexData := ⟨indexData.menus ++ [⟨menuId, some metadata, menuDataUrl⟩]⟩
    if env.blobWriteFails INDEX_FILE_NAME then Except.error ()
    else
      let indexFileUrl := env.urlOf INDEX_FILE_NAME
      let st2 := setIndexBlob st1 indexFileUrl newIndex
      if env.pointerSetFails then Except.error ()
      else Except.ok { st2 with pointer := some indexFileUrl }

/-- The loose match of `getMenu`:
`menu.id === menuId || menu.id.includes(menuId) || menuId.includes(menu.id)`. -/
def looseMatch (m : IndexEntry) (menuId : String) : Bool :=
  m.id == menuId || jsIncludes m.id menuId || jsIncludes menuId m.id

/-- `indexData.menus.find(...)` of `getMenu`. -/
def findMenuEntry (menus : List IndexEntry) (menuId : String) : Option IndexEntry :=
  menus.find? (fun m => looseMatch m menuId)

/-- `getMenu`: empty index, no match, missing (`""`, falsy) URL, or failed
blob fetch all yield `none`; otherwise the fetched document. -/
def getMenu (st : Store) (menuId : String) : Option MenuDocument :=
  let indexData := getIndexData st
  if indexData.menus.isEmpty then none
  else
    match findMenuEntry indexData.menus menuId with
    | none => none
    | some entry =>
      if entry.menuDataUrl = "" then none
      else st.menuBlobs entry.menuDataUrl

/-- `{id: menu.id, ...menu.metadata}`. -/
def histItem (m : IndexEntry) : MenuHistoryItem := ⟨m.id, m.metadata⟩

/-- Sort key of `getMenuHistory`: `new Date(item.createdAt).getTime()`. -/
def histTime (getTime : Option String → Int) (it : MenuHistoryItem) : Int :=
  getTime (it.metadata.map (fun md => md.createdAt))

/-- Insertion step of the descending sort on the history key. -/
def insertByTime (key : MenuHistoryItem → Int) (x : MenuHistoryItem) :
    List MenuHistoryItem → List MenuHistoryItem
  | [] => [x]
  | y :: ys => if key x ≤ key y then y :: insertByTime key x ys else x :: y :: ys

/-- `Array.prototype.sort` with comparator `time(b) - time(a)`, i.e. a sort
descending by the key (insertion sort; the comparator is consistent, so any
conforming sort yields a list ordered this way). -/
def sortDescBy (key : MenuHistoryItem → Int) : List MenuHistoryItem → List MenuHistoryItem
  | [] => []
  | x :: xs => insertByTime key x (sortDescBy key xs)

/-- `getMenuHistory`: one flat record per index entry (metadata spread in
as stored), sorted descending by creation time. -/
def getMenuHistory (getTime : Option String → Int) (st : Store) : List MenuHistoryItem :=
  sortDescBy (histTime getTime) ((getIndexData st).menus.map histItem)

/-- The duration window test of `searchSimilarMenus`:
`menuDuration >= duration * 0.8 && menuDuration <= duration * 1.2` after
`parseInt(metadata.duration)`, guarded by the truthiness of `metadata`;
`NaN` (`none`) fails both comparisons. -/
def entryInWindow (duration : ℚ) (m : IndexEntry) : Bool :=
  match m.metadata with
  | none => false
  | some md =>
    match jsParseInt md.duration with
    | none => false
    | some n =>
      decide (duration * (4 / 5) ≤ (n : ℚ)) && decide ((n : ℚ) ≤ duration * (6 / 5))

/-- The loop body of `searchSimilarMenus` over an explicit entry list:
fetch the blob of every in-window entry, keep the successful fetches. -/
def searchResultsOn (st : Store) (duration : ℚ) (menus : List IndexEntry) :
    List MenuDocument :=
  (menus.filter (entryInWindow duration)).filterMap (fun m => st.menuBlobs m.menuDataUrl)

/-- The URLs the loop of `searchSimilarMenus` fetches (exactly the
in-window entries, in index order). -/
def searchFetchesOn (duration : ℚ) (menus : List IndexEntry) : List String :=
  (menus.filter (entryInWindow duration)).map (fun m => m.menuDataUrl)

/-- `searchSimilarMenus(query, duration)` (the `query` argument is unused
by the implementation). -/
def searchSimilarMenus (st : Store) (_query : String) (duration : ℚ) : List MenuDocument :=
  searchResultsOn st duration (getIndexData st).menus

/-- URLs fetched during `searchSimilarMenus(query, duration)`. -/
def searchFetches (st : Store) (_query : String) (duration : ℚ) : List String :=
  searchFetchesOn duration (getIndexData st).menus

/-! ## Helper lemmas: decimal round trip of the JS builtins -/

theorem digitVal_digChar {d : Nat} (h : d < 10) : digitVal (digChar d) = some d := by
  interval_cases d <;> decide

theorem digChar_not_special {d : Nat} (h : d < 10) :
    jsWhitespace (digChar d) = false ∧ digChar d ≠ '-' ∧ digChar d ≠ '+' ∧
    digChar d ≠ 'x' ∧ digChar d ≠ 'X' := by
  interval_cases d <;> decide

theorem digChar_eq_zero_iff {d : Nat} (h : d < 10) : digChar d = '0' ↔ d = 0 := by
  interval_cases d <;> decide

theorem natDigits_ne_nil (n : Nat) : natDigits n ≠ [] := by
  rw [natDigits]
  split <;> simp

theorem natDigits_lt_ten (n : Nat) : ∀ d ∈ natDigits n, d < 10 := by
  induction n using Nat.strong_induction_on with
  | _ n ih =>
    rw [natDigits]
    split
    · next h => intro d hd; rw [List.mem_singleton] at hd; omega
    · next h =>
      intro d hd
      rw [List.mem_append] at hd
      rcases hd with hd | hd
      · exact ih (n / 10) (Nat.div_lt_self (by omega) (by norm_num)) d hd
      · rw [List.mem_singleton] at hd
        subst hd
        exact Nat.mod_lt _ (by norm_num)

/-- Folding step that `parseDigits` performs on each digit. -/
def digStep (a : Nat) (c : Char) : Nat := a * 10 + (digitVal c).getD 0

theorem parseDigits_all_digits :
    ∀ (xs : List Char), (∀ c ∈ xs, (digitVal c).isSome = true) →
      ∀ acc, parseDigits acc xs = (xs.foldl digStep acc, []) := by
  intro xs
  induction xs with
  | nil => intro _ acc; rfl
  | cons c cs ih =>
    intro hxs acc
    obtain ⟨d, hd⟩ := Option.isSome_iff_exists.mp (hxs c (by simp))
    rw [parseDigits, hd, List.foldl_cons]
    have : digStep acc c = acc * 10 + d := by simp [digStep, hd]
    rw [this]
    exact ih (fun c hc => hxs c (by simp [hc])) _

theorem foldl_digStep_digits (n : Nat) :
    ∀ acc, ((natDigits n).map digChar).foldl digStep acc =
      acc * 10 ^ (natDigits n).length + n := by
  induction n using Nat.strong_induction_on with
  | _ n ih =>
    intro acc
    rw [natDigits]
    split
    · next h =>
      simp only [List.map_cons, List.map_nil, List.foldl_cons, List.foldl_nil,
        List.length_singleton, pow_one, digStep, digitVal_digChar h, Option.getD_some]
    · next h =>
      have hdiv : n / 10 < n := Nat.div_lt_self (by omega) (by norm_num)
      rw [List.map_append, List.foldl_append, ih (n / 10) hdiv acc]
      have hmod : n % 10 < 10 := Nat.mod_lt _ (by norm_num)
      simp only [List.map_cons, List.map_nil, List.foldl_cons, List.foldl_nil,
        List.length_append, List.length_singleton, digStep,
        digitVal_digChar hmod, Option.getD_some]
      have hdm : 10 * (n / 10) + n % 10 = n := Nat.div_add_mod n 10
      have : (acc * 10 ^ (natDigits (n / 10)).length + n / 10) * 10 + n % 10 =
          acc * (10 ^ (natDigits (n / 10)).length * 10) + (10 * (n / 10) + n % 10) := by
        ring
      rw [this, hdm, pow_succ]

theorem jsParseNat_digits (n : Nat) :
    jsParseNat ((natDigits n).map digChar) = some n := by
  have hlt := natDigits_lt_ten n
  have hall : ∀ c ∈ (natDigits n).map digChar, (digitVal c).isSome = true := by
    intro c hc
    rw [List.mem_map] at hc
    obtain ⟨d, hd, rfl⟩ := hc
    rw [digitVal_digChar (hlt d hd)]
    rfl
  have hparse : (parseDigits 0 ((natDigits n).map digChar)).1 = n := by
    rw [parseDigits_all_digits _ hall 0]
    have := foldl_digStep_digits n 0
    simpa using this
  rcases hds : natDigits n with _ | ⟨d0, ds⟩
  · exact absurd hds (natDigits_ne_nil n)
  · have hd0 : d0 < 10 := hlt d0 (by rw [hds]; simp)
    rw [hds] at hparse
    simp only [List.map_cons] at hparse
    rcases ds with _ | ⟨d1, ds'⟩
    · -- singleton digit list
      by_cases h0 : d0 = 0
      · subst h0
        have hn : n = 0 := by
          have := hparse.symm
          simpa [parseDigits, digStep, digitVal, digChar] using this
        subst hn
        decide
      · have hne : digChar d0 ≠ '0' := fun hc => h0 ((digChar_eq_zero_iff hd0).mp hc)
        have hs : (digitVal (digChar d0)).isSome = true := by
          rw [digitVal_digChar hd0]; rfl
        simp only [List.map_cons, List.map_nil, jsParseNat, hne, if_false, hs, if_true]
        exact congrArg some hparse
    · have hd1 : d1 < 10 := hlt d1 (by rw [hds]; simp)
      obtain ⟨-, -, -, hx, hX⟩ := digChar_not_special hd1
      by_cases h0 : digChar d0 = '0'
      · simp only [List.map_cons, jsParseNat, h0, if_true, hx, hX, Bool.or_self,
          Bool.false_eq_true, if_false]
        rw [← h0]
        exact congrArg some hparse
      · have hs : (digitVal (digChar d0)).isSome = true := by
          rw [digitVal_digChar hd0]; rfl
        simp only [List.map_cons, jsParseNat, h0, if_false, hs, if_true]
        exact congrArg some hparse

theorem jsParseInt_jsNatToString (n : Nat) :
    jsParseInt (jsNatToString n) = some (n : Int) := by
  rcases hds : natDigits n with _ | ⟨d0, ds⟩
  · exact absurd hds (natDigits_ne_nil n)
  · have hd0 : d0 < 10 := natDigits_lt_ten n d0 (by rw [hds]; simp)
    obtain ⟨hws, hminus, hplus, -, -⟩ := digChar_not_special hd0
    have hjp := jsParseNat_digits n
    rw [hds, List.map_cons] at hjp
    have hdata : (jsNatToString n).data = digChar d0 :: ds.map digChar := by
      simp only [jsNatToString, hds, List.map_cons]
    simp only [jsParseInt, hdata, List.dropWhile_cons, hws, Bool.false_eq_true, if_false,
      hminus, hplus, hjp]

theorem jsParseInt_natFieldString (n : Nat) :
    jsParseInt (natFieldString (some n)) = some (n : Int) := by
  unfold natFieldString
  by_cases h : n = 0
  · subst h; decide
  · simp only [h, if_false, jsParseInt_jsNatToString]

/-! ## Helper lemmas: substring match and `find?` -/

theorem containsSub_nil (l : List Char) : containsSub [] l = true := by
  cases l <;> rfl

theorem jsIncludes_empty (s : String) : jsIncludes s "" = true :=
  containsSub_nil s.data

theorem looseMatch_self_id (m : IndexEntry) (qid : String) (h : m.id = qid) :
    looseMatch m qid = true := by
  simp [looseMatch, h]

theorem looseMatch_empty_query (m : IndexEntry) : looseMatch m "" = true := by
  simp [looseMatch, jsIncludes_empty]

theorem find?_append_first {p : IndexEntry → Bool} (l1 l2 : List IndexEntry)
    (m : IndexEntry) (hm : p m = true) (h1 : ∀ x ∈ l1, p x = false) :
    (l1 ++ m :: l2).find? p = some m := by
  induction l1 with
  | nil => simpa using List.find?_cons_of_pos l2 hm
  | cons a l ih =>
    have ha : ¬ p a = true := by simp [h1 a (by simp)]
    rw [List.cons_append, List.find?_cons_of_neg _ ha]
    exact ih (fun x hx => h1 x (by simp [hx]))

/-! ## Helper lemmas: the search loop -/

theorem searchResultsOn_drop_entry (st : Store) (d : ℚ) (l1 l2 : List IndexEntry)
    (m : IndexEntry) (h : entryInWindow d m = false) :
    searchResultsOn st d (l1 ++ m :: l2) = searchResultsOn st d (l1 ++ l2) := by
  unfold searchResultsOn
  rw [List.filter_append, List.filter_append, List.filter_cons, h]
  simp

theorem searchFetchesOn_drop_entry (d : ℚ) (l1 l2 : List IndexEntry)
    (m : IndexEntry) (h : entryInWindow d m = false) :
    searchFetchesOn d (l1 ++ m :: l2) = searchFetchesOn d (l1 ++ l2) := by
  unfold searchFetchesOn
  rw [List.filter_append, List.filter_append, List.filter_cons, h]
  simp

theorem searchResultsOn_drop_failed_fetch (st : Store) (d : ℚ) (l1 l2 : List IndexEntry)
    (m : IndexEntry) (h : st.menuBlobs m.menuDataUrl = none) :
    searchResultsOn st d (l1 ++ m :: l2) = searchResultsOn st d (l1 ++ l2) := by
  unfold searchResultsOn
  rw [List.filter_append, List.filter_append, List.filter_cons]
  by_cases hw : entryInWindow d m
  · rw [if_pos hw, List.filterMap_append, List.filterMap_append, List.filterMap_cons, h]
  · rw [if_neg hw]

theorem entryInWindow_false_of_outside (d : ℚ) (m : IndexEntry) (md : MenuMetadata)
    (n : Int) (hmd : m.metadata = some md) (hp : jsParseInt md.duration = some n)
    (hout : (n : ℚ) < d * (4 / 5) ∨ d * (6 / 5) < (n : ℚ)) :
    entryInWindow d m = false := by
  rcases hout with hout | hout
  · have h1 : ¬ (d * (4 / 5) ≤ (n : ℚ)) := not_le.mpr hout
    simp only [entryInWindow, hmd, hp, h1, decide_False, Bool.false_and]
  · have h2 : ¬ ((n : ℚ) ≤ d * (6 / 5)) := not_le.mpr hout
    simp only [entryInWindow, hmd, hp, h2, decide_False, Bool.and_false]

theorem entryInWindow_true_of_inside (d : ℚ) (m : IndexEntry) (md : MenuMetadata)
    (n : Int) (hmd : m.metadata = some md) (hp : jsParseInt md.duration = some n)
    (h1 : d * (4 / 5) ≤ (n : ℚ)) (h2 : (n : ℚ) ≤ d * (6 / 5)) :
    entryInWindow d m = true := by
  simp only [entryInWindow, hmd, hp]
  simp [h1, h2]

theorem entryInWindow_false_of_bad (d : ℚ) (m : IndexEntry)
    (hbad : m.metadata = none ∨ ∃ md, m.metadata = some md ∧ jsParseInt md.duration = none) :
    entryInWindow d m = false := by
  rcases hbad with h | ⟨md, hmd, hp⟩
  · simp only [entryInWindow, h]
  · simp only [entryInWindow, hmd, hp]

/-! ## Helper lemmas: the history sort -/

theorem perm_insertByTime (key : MenuHistoryItem → Int) (x : MenuHistoryItem)
    (l : List MenuHistoryItem) : List.Perm (insertByTime key x l) (x :: l) := by
  induction l with
  | nil => exact List.Perm.refl _
  | cons y ys ih =>
    rw [insertByTime]
    split
    · exact (ih.cons y).trans (List.Perm.swap x y ys)
    · exact List.Perm.refl _

theorem perm_sortDescBy (key : MenuHistoryItem → Int) (l : List MenuHistoryItem) :
    List.Perm (sortDescBy key l) l := by
  induction l with
  | nil => exact List.Perm.refl _
  | cons x xs ih => exact (perm_insertByTime key x _).trans (ih.cons x)

theorem pairwise_insertByTime (key : MenuHistoryItem → Int) (x : MenuHistoryItem)
    (l : List MenuHistoryItem) (h : l.Pairwise (fun a b => key b ≤ key a)) :
    (insertByTime key x l).Pairwise (fun a b => key b ≤ key a) := by
  induction l with
  | nil => simp [insertByTime]
  | cons y ys ih =>
    rw [List.pairwise_cons] at h
    obtain ⟨hy, hys⟩ := h
    rw [insertByTime]
    split
    · next hxy =>
      rw [List.pairwise_cons]
      refine ⟨fun z hz => ?_, ih hys⟩
      rcases List.mem_cons.mp ((perm_insertByTime key x ys).mem_iff.mp hz) with rfl | hz
      · exact hxy
      · exact hy z hz
    · next hxy =>
      push_neg at hxy
      rw [List.pairwise_cons]
      refine ⟨fun z hz => ?_, List.pairwise_cons.mpr ⟨hy, hys⟩⟩
      rcases List.mem_cons.mp hz with rfl | hz
      · exact le_of_lt hxy
      · exact (hy z hz).trans (le_of_lt hxy)

theorem pairwise_sortDescBy (key : MenuHistoryItem → Int) (l : List MenuHistoryItem) :
    (sortDescBy key l).Pairwise (fun a b => key b ≤ key a) := by
  induction l with
  | nil => simp [sortDescBy]
  | cons x xs ih => exact pairwise_insertByTime key x _ ih

/-! ## Concrete instances used by witnesses and counterexamples -/

/-- Metadata with a given stored duration string. -/
def mdDur (dur : String) : MenuMetadata :=
  ⟨"A,B", dur, "", "2024-01-01T00:00:00.000Z", "60", "", [], "Title", "Model"⟩

def docA : MenuDocument :=
  ⟨some "A", [], some ["A"], some 30, none, some 45, none, none, none⟩

def docB : MenuDocument :=
  ⟨some "B", [], some ["B"], some 30, none, some 45, none, none, none⟩

/-- A store whose pointer cell is empty. -/
def emptyStore : Store := ⟨none, fun _ => none, fun _ => none⟩

/-- A store holding one index entry with the given duration string. -/
def oneEntryStore (dur : String) : Store :=
  { pointer := some "iu"
    indexBlobs := fun u => if u = "iu" then some ⟨[⟨"m1", some (mdDur dur), "u1"⟩]⟩ else none
    menuBlobs := fun u => if u = "u1" then some docA else none }

/-- A store with two entries sharing the id `"dup"`. -/
def dupStore : Store :=
  { pointer := some "iu"
    indexBlobs := fun u =>
      if u = "iu" then
        some ⟨[⟨"dup", some (mdDur "30"), "u1"⟩, ⟨"dup", some (mdDur "31"), "u2"⟩]⟩
      else none
    menuBlobs := fun u => if u = "u1" then some docA else if u = "u2" then some docB else none }

/-- A store whose only entry has a valid-looking URL but no blob behind it. -/
def brokenStore : Store :=
  { pointer := some "iu"
    indexBlobs := fun u => if u = "iu" then some ⟨[⟨"m1", some (mdDur "30"), "ux"⟩]⟩ else none
    menuBlobs := fun _ => none }

/-! ## Claim theorems -/

/-- C6: `load()` (`getIndexData`) returns the empty index `{menus: []}` —
and, being total, never raises to its caller — whenever the Pointer Store
holds no index URL (absent, or the falsy empty string) or the Blob Store
fetch of the index document fails or yields no document; otherwise it
returns the fetched index. -/
theorem C6_load_degrades_to_empty (st : Store) :
    (st.pointer = none → getIndexData st = ⟨[]⟩) ∧
    (st.pointer = some "" → getIndexData st = ⟨[]⟩) ∧
    (∀ u, st.pointer = some u → st.indexBlobs u = none → getIndexData st = ⟨[]⟩) ∧
    (∀ u idx, st.pointer = some u → u ≠ "" → st.indexBlobs u = some idx →
      getIndexData st = idx) := by
  refine ⟨?_, ?_, ?_, ?_⟩
  · intro h; simp [getIndexData, h]
  · intro h; simp [getIndexData, h]
  · intro u h hb
    by_cases hu : u = ""
    · subst hu; simp [getIndexData, h]
    · simp [getIndexData, h, hu, hb]
  · intro u idx h hu hb
    simp [getIndexData, h, hu, hb]

/-- C6 witness: an absent pointer yields the empty index. -/
theorem C6_witness : getIndexData emptyStore = ⟨[]⟩ :=
  (C6_load_degrades_to_empty emptyStore).1 rfl

/-- C2: `search` excludes an entry — and never fetches its document —
whenever the duration parsed from its stored stringified duration lies
outside the closed window `[0.8·target, 1.2·target]`, regardless of any
other match: results and fetched URLs equal those of the index with the
entry removed. -/
theorem C2_search_hard_duration_filter (st : Store) (q : String) (d : ℚ)
    (l1 l2 : List IndexEntry) (m : IndexEntry) (md : MenuMetadata) (n : Int)
    (hidx : (getIndexData st).menus = l1 ++ m :: l2)
    (hmd : m.metadata = some md)
    (hp : jsParseInt md.duration = some n)
    (hout : (n : ℚ) < d * (4 / 5) ∨ d * (6 / 5) < (n : ℚ)) :
    searchSimilarMenus st q d = searchResultsOn st d (l1 ++ l2) ∧
    searchFetches st q d = searchFetchesOn d (l1 ++ l2) := by
  have hw := entryInWindow_false_of_outside d m md n hmd hp hout
  constructor
  · rw [searchSimilarMenus, hidx]
    exact searchResultsOn_drop_entry st d l1 l2 m hw
  · rw [searchFetches, hidx]
    exact searchFetchesOn_drop_entry d l1 l2 m hw

/-- C2 witness: with target 30 the window is `[24, 36]`; a stored duration
of `"50"` is excluded and its URL is never fetched. -/
theorem C2_witness :
    (getIndexData (oneEntryStore "50")).menus =
      [] ++ (⟨"m1", some (mdDur "50"), "u1"⟩ : IndexEntry) :: [] ∧
    jsParseInt (mdDur "50").duration = some 50 ∧
    ((50 : ℚ) < 30 * (4 / 5) ∨ (30 : ℚ) * (6 / 5) < (50 : ℚ)) ∧
    searchSimilarMenus (oneEntryStore "50") "q" 30 =
      searchResultsOn (oneEntryStore "50") 30 ([] ++ []) ∧
    searchFetches (oneEntryStore "50") "q" 30 = searchFetchesOn 30 ([] ++ []) := by
  have hout : ((50 : Int) : ℚ) < 30 * (4 / 5) ∨ (30 : ℚ) * (6 / 5) < ((50 : Int) : ℚ) :=
    Or.inr (by norm_num)
  have h := C2_search_hard_duration_filter (oneEntryStore "50") "q" 30 [] []
    ⟨"m1", some (mdDur "50"), "u1"⟩ (mdDur "50") 50 rfl rfl (by decide) hout
  exact ⟨rfl, by decide, Or.inr (by norm_num), h.1, h.2⟩

/-- C9: an index entry whose metadata field is absent, or whose stored
duration string does not parse as an integer (`parseInt` yields NaN, which
fails both window comparisons), is skipped by `search` without raising (the
model is total) and without its document being fetched; iteration continues
with the remaining entries: results and fetched URLs equal those of the
index with the entry removed. -/
theorem C9_search_skips_unparseable (st : Store) (q : String) (d : ℚ)
    (l1 l2 : List IndexEntry) (m : IndexEntry)
    (hidx : (getIndexData st).menus = l1 ++ m :: l2)
    (hbad : m.metadata = none ∨
      ∃ md, m.metadata = some md ∧ jsParseInt md.duration = none) :
    searchSimilarMenus st q d = searchResultsOn st d (l1 ++ l2) ∧
    searchFetches st q d = searchFetchesOn d (l1 ++ l2) := by
  have hw := entryInWindow_false_of_bad d m hbad
  constructor
  · rw [searchSimilarMenus, hidx]
    exact searchResultsOn_drop_entry st d l1 l2 m hw
  · rw [searchFetches, hidx]
    exact searchFetchesOn_drop_entry d l1 l2 m hw

/-- C9 witness: a stored duration `"abc"` does not parse; the entry is
skipped and nothing is fetched. -/
theorem C9_witness :
    jsParseInt (mdDur "abc").duration = none ∧
    searchSimilarMenus (oneEntryStore "abc") "q" 30 =
      searchResultsOn (oneEntryStore "abc") 30 ([] ++ []) ∧
    searchFetches (oneEntryStore "abc") "q" 30 = searchFetchesOn 30 ([] ++ []) := by
  have h := C9_search_skips_unparseable (oneEntryStore "abc") "q" 30 [] []
    ⟨"m1", some (mdDur "abc"), "u1"⟩ rfl
    (Or.inr ⟨mdDur "abc", rfl, by decide⟩)
  exact ⟨by decide, h.1, h.2⟩

/-- C4: `getById` selects the first entry, in index order, whose stored id
equals the query id, contains it, or is contained by it; consequently when
two entries share the same id, lookup resolves deterministically to the
first occurrence, and the fetch then uses the selected entry's URL. -/
theorem C4_getMenu_first_loose_match (st : Store) (qid : String)
    (l1 l2 : List IndexEntry) (m : IndexEntry)
    (hidx : (getIndexData st).menus = l1 ++ m :: l2)
    (hm : looseMatch m qid = true)
    (hl1 : ∀ x ∈ l1, looseMatch x qid = false) :
    findMenuEntry (getIndexData st).menus qid = some m ∧
    (m.menuDataUrl ≠ "" → getMenu st qid = st.menuBlobs m.menuDataUrl) := by
  have hfind : findMenuEntry (getIndexData st).menus qid = some m := by
    rw [hidx]
    exact find?_append_first l1 l2 m hm hl1
  refine ⟨hfind, fun hurl => ?_⟩
  have hne : (getIndexData st).menus.isEmpty = false := by
    rw [hidx]; cases l1 <;> rfl
  simp only [getMenu, hne, Bool.false_eq_true, if_false, hfind]
  rw [if_neg hurl]

/-- C4 witness: two entries share the id `"dup"`; lookup returns the
first-indexed one and its document. -/
theorem C4_witness :
    looseMatch ⟨"dup", some (mdDur "30"), "u1"⟩ "dup" = true ∧
    findMenuEntry (getIndexData dupStore).menus "dup" =
      some ⟨"dup", some (mdDur "30"), "u1"⟩ ∧
    getMenu dupStore "dup" = some docA := by
  have h := C4_getMenu_first_loose_match dupStore "dup" []
    [⟨"dup", some (mdDur "31"), "u2"⟩] ⟨"dup", some (mdDur "30"), "u1"⟩
    rfl (by decide) (by intro x hx; exact absurd hx (List.not_mem_nil x))
  exact ⟨by decide, h.1, by rw [h.2 (by decide)]; rfl⟩

/-- C10: on a non-empty index, `getById` called with the empty string
matches the first entry (every stored id contains `""` under the
bidirectional substring match), so it proceeds to that entry's document
fetch instead of reporting not-found-in-index. -/
theorem C10_empty_id_matches_first (st : Store) (m : IndexEntry)
    (rest : List IndexEntry)
    (hidx : (getIndexData st).menus = m :: rest) :
    findMenuEntry (getIndexData st).menus "" = some m ∧
    (m.menuDataUrl ≠ "" → getMenu st "" = st.menuBlobs m.menuDataUrl) := by
  have hm : looseMatch m "" = true := looseMatch_empty_query m
  have hfind : findMenuEntry (getIndexData st).menus "" = some m := by
    rw [hidx]
    exact List.find?_cons_of_pos rest hm
  refine ⟨hfind, fun hurl => ?_⟩
  have hne : (getIndexData st).menus.isEmpty = false := by rw [hidx]; rfl
  simp only [getMenu, hne, Bool.false_eq_true, if_false, hfind]
  rw [if_neg hurl]

/-- C10 witness: the empty query id resolves to the first of the two
`"dup"` entries and returns its document. -/
theorem C10_witness :
    (getIndexData dupStore).menus =
      (⟨"dup", some (mdDur "30"), "u1"⟩ : IndexEntry) ::
        [⟨"dup", some (mdDur "31"), "u2"⟩] ∧
    getMenu dupStore "" = some docA := by
  have h := C10_empty_id_matches_first dupStore ⟨"dup", some (mdDur "30"), "u1"⟩
    [⟨"dup", some (mdDur "31"), "u2"⟩] rfl
  exact ⟨rfl, by rw [h.2 (by decide)]; rfl⟩

/-- C7: `getById` is a total function into an option (it never raises): it
returns the sentinel `none` whenever the index is empty, no entry matches,
the matched entry's stored URL is missing (falsy), or the blob fetch at
that URL fails; and in the blob-absent case the same entry is also silently
excluded from `search` results. -/
theorem C7_getMenu_absence (st : Store) (qid : String) :
    ((getIndexData st).menus = [] → getMenu st qid = none) ∧
    (findMenuEntry (getIndexData st).menus qid = none → getMenu st qid = none) ∧
    (∀ m, findMenuEntry (getIndexData st).menus qid = some m →
      m.menuDataUrl = "" → getMenu st qid = none) ∧
    (∀ m, findMenuEntry (getIndexData st).menus qid = some m →
      m.menuDataUrl ≠ "" → st.menuBlobs m.menuDataUrl = none →
      getMenu st qid = none ∧
      ∀ q d l1 l2, (getIndexData st).menus = l1 ++ m :: l2 →
        searchSimilarMenus st q d = searchResultsOn st d (l1 ++ l2)) := by
  refine ⟨?_, ?_, ?_, ?_⟩
  · intro h
    simp [getMenu, h]
  · intro hfind
    by_cases he : (getIndexData st).menus.isEmpty
    · simp [getMenu, he]
    · simp [getMenu, he, hfind]
  · intro m hfind hurl
    by_cases he : (getIndexData st).menus.isEmpty
    · simp [getMenu, he]
    · simp [getMenu, he, hfind, hurl]
  · intro m hfind hurl hb
    constructor
    · by_cases he : (getIndexData st).menus.isEmpty
      · simp [getMenu, he]
      · simp only [getMenu, he, Bool.false_eq_true, if_false, hfind]
        rw [if_neg hurl, hb]
    · intro q d l1 l2 hidx
      rw [searchSimilarMenus, hidx]
      exact searchResultsOn_drop_failed_fetch st d l1 l2 m hb

/-- C7 witness: the single entry's URL is present in the index but the blob
is absent; `getById` returns `none` and `search` returns nothing. -/
theorem C7_witness :
    findMenuEntry (getIndexData brokenStore).menus "m1" =
      some ⟨"m1", some (mdDur "30"), "ux"⟩ ∧
    getMenu brokenStore "m1" = none ∧
    searchSimilarMenus brokenStore "q" 30 = searchResultsOn brokenStore 30 ([] ++ []) := by
  have h := (C7_getMenu_absence brokenStore "m1").2.2.2 ⟨"m1", some (mdDur "30"), "ux"⟩
    (by decide) (by decide) rfl
  exact ⟨by decide, h.1, h.2 "q" 30 [] [] rfl⟩

/-- A store with six in-window entries whose fetches all succeed. -/
def bigStore : Store :=
  { pointer := some "iu"
    indexBlobs := fun u =>
      if u = "iu" then
        some ⟨[⟨"m1", some (mdDur "30"), "u1"⟩, ⟨"m2", some (mdDur "28"), "u2"⟩,
               ⟨"m3", some (mdDur "32"), "u3"⟩, ⟨"m4", some (mdDur "24"), "u4"⟩,
               ⟨"m5", some (mdDur "36"), "u5"⟩, ⟨"m6", some (mdDur "30"), "u6"⟩]⟩
      else none
    menuBlobs := fun u =>
      if u = "u1" then some docA else if u = "u2" then some docA
      else if u = "u3" then some docA else if u = "u4" then some docA
      else if u = "u5" then some docA else if u = "u6" then some docA
      else none }

/-- C1 counterexample: with six entries inside the duration window for
target 30 and all fetches succeeding, `searchSimilarMenus` returns six
results, refuting the at-most-5 bound; the results are moreover plain
documents carrying no score (the implementation computes none), so the
claimed `{document, score}` pairs, score threshold and score sort do not
exist in the code. -/
theorem C1_counterexample :
    ¬ ((searchSimilarMenus bigStore "q" 30).length ≤ 5) := by
  have hin : ∀ (i u dur : String) (n : Int), jsParseInt dur = some n →
      (24 : ℚ) ≤ (n : ℚ) → (n : ℚ) ≤ 36 →
      entryInWindow 30 ⟨i, some (mdDur dur), u⟩ = true := by
    intro i u dur n hp hlo hhi
    refine entryInWindow_true_of_inside 30 _ (mdDur dur) n rfl ?_ (by linarith) (by linarith)
    simpa [mdDur] using hp
  have h1 := hin "m1" "u1" "30" 30 (by decide) (by norm_num) (by norm_num)
  have h2 := hin "m2" "u2" "28" 28 (by decide) (by norm_num) (by norm_num)
  have h3 := hin "m3" "u3" "32" 32 (by decide) (by norm_num) (by norm_num)
  have h4 := hin "m4" "u4" "24" 24 (by decide) (by norm_num) (by norm_num)
  have h5 := hin "m5" "u5" "36" 36 (by decide) (by norm_num) (by norm_num)
  have h6 := hin "m6" "u6" "30" 30 (by decide) (by norm_num) (by norm_num)
  have hres : searchSimilarMenus bigStore "q" 30 = [docA, docA, docA, docA, docA, docA] := by
    rw [searchSimilarMenus, searchResultsOn,
      show (getIndexData bigStore).menus =
        [⟨"m1", some (mdDur "30"), "u1"⟩, ⟨"m2", some (mdDur "28"), "u2"⟩,
         ⟨"m3", some (mdDur "32"), "u3"⟩, ⟨"m4", some (mdDur "24"), "u4"⟩,
         ⟨"m5", some (mdDur "36"), "u5"⟩, ⟨"m6", some (mdDur "30"), "u6"⟩] from rfl]
    simp only [List.filter_cons, h1, h2, h3, h4, h5, h6, if_true, List.filter_nil]
    rfl
  rw [hres]
  decide

/-- C1 amended: `search` returns the plain full documents (no scores) of
exactly those index entries whose metadata is present, whose stored
duration parses to a value inside the closed window
`[0.8·target, 1.2·target]`, and whose document fetch succeeds, in index
order; the only cardinality bound is the index length — there is no
truncation to 5, no score threshold, and no sorting. -/
theorem C1_amended_search_characterization (st : Store) (q : String) (d : ℚ) :
    searchSimilarMenus st q d =
      (getIndexData st).menus.filterMap (fun m =>
        match m.metadata with
        | none => none
        | some md =>
          match jsParseInt md.duration with
          | none => none
          | some n =>
            if d * (4 / 5) ≤ (n : ℚ) ∧ (n : ℚ) ≤ d * (6 / 5) then
              st.menuBlobs m.menuDataUrl
            else none) ∧
    (searchSimilarMenus st q d).length ≤ (getIndexData st).menus.length := by
  constructor
  · rw [searchSimilarMenus, searchResultsOn, List.filterMap_filter]
    have hfun : (fun m => if entryInWindow d m = true then st.menuBlobs m.menuDataUrl else none) =
        (fun (m : IndexEntry) =>
          match m.metadata with
          | none => none
          | some md =>
            match jsParseInt md.duration with
            | none => none
            | some n =>
              if d * (4 / 5) ≤ (n : ℚ) ∧ (n : ℚ) ≤ d * (6 / 5) then
                st.menuBlobs m.menuDataUrl
              else none) := by
      funext m
      rcases hmd : m.metadata with _ | md
      · simp [entryInWindow, hmd]
      · rcases hp : jsParseInt md.duration with _ | n
        · simp [entryInWindow, hmd, hp]
        · simp only [entryInWindow, hmd, hp]
          by_cases h1 : d * (4 / 5) ≤ (n : ℚ) <;> by_cases h2 : (n : ℚ) ≤ d * (6 / 5) <;>
            simp [h1, h2]
    rw [hfun]
  · rw [searchSimilarMenus, searchResultsOn]
    exact le_trans (List.length_filterMap_le _ _) (List.length_filter_le _ _)

/-- An environment whose index-document write throws. -/
def failIndexEnv : Env := ⟨fun p => "url:" ++ p, fun p => p == INDEX_FILE_NAME, false⟩

/-- An environment whose pointer-store write throws. -/
def failPointerEnv : Env := ⟨fun p => "url:" ++ p, fun _ => false, true⟩

/-- C8: the write path of `save` writes the updated index document under
the fixed path `menus/index.json` and then publishes the returned URL under
the fixed pointer key; if either of these writes fails, `saveMenu` rejects
(`Except.error`) — the failure is not swallowed, unlike the read paths —
and on success the final state holds the appended index under the returned
URL with the pointer set to that URL. -/
theorem C8_persist_write_path (env : Env) (st : Store) (now id : String)
    (doc : MenuDocument) :
    (env.blobWriteFails INDEX_FILE_NAME = true →
      saveMenu env st now id doc = Except.error ()) ∧
    (env.pointerSetFails = true → saveMenu env st now id doc = Except.error ()) ∧
    (∀ st', saveMenu env st now id doc = Except.ok st' →
      st'.indexBlobs (env.urlOf INDEX_FILE_NAME) =
        some ⟨(getIndexData st).menus ++
          [⟨id, some (mkMetadata now doc), env.urlOf ("menus/" ++ id ++ ".json")⟩]⟩ ∧
      st'.pointer = some (env.urlOf INDEX_FILE_NAME)) := by
  refine ⟨?_, ?_, ?_⟩
  · intro h
    by_cases h1 : env.blobWriteFails ("menus/" ++ id ++ ".json") <;>
      simp [saveMenu, h1, h]
  · intro h
    by_cases h1 : env.blobWriteFails ("menus/" ++ id ++ ".json")
    · simp [saveMenu, h1]
    · by_cases h2 : env.blobWriteFails INDEX_FILE_NAME <;> simp [saveMenu, h1, h2, h]
  · intro st' hok
    by_cases h1 : env.blobWriteFails ("menus/" ++ id ++ ".json")
    · simp [saveMenu, h1] at hok
    · by_cases h2 : env.blobWriteFails INDEX_FILE_NAME
      · simp [saveMenu, h1, h2] at hok
      · by_cases h3 : env.pointerSetFails
        · simp [saveMenu, h1, h2, h3] at hok
        · simp only [saveMenu, h1, h2, h3, Bool.false_eq_true, if_false,
            Except.ok.injEq] at hok
          subst hok
          constructor
          · simp [setIndexBlob, setMenuBlob, getIndexData]
          · rfl

/-- C8 witness: a failing index-blob write propagates out of `saveMenu` as
an error. -/
theorem C8_witness :
    failIndexEnv.blobWriteFails INDEX_FILE_NAME = true ∧
    saveMenu failIndexEnv emptyStore "t" "m1" docA = Except.error () :=
  ⟨rfl, (C8_persist_write_path failIndexEnv emptyStore "t" "m1" docA).1 rfl⟩

/-- C5 counterexample: the history record keeps the index metadata exactly
as stored — the load levels remain the comma-joined string `"A,B"` and the
duration remains the string `"30"` — refuting the claim that the
comma-joined load-level string and the stringified numeric fields are
re-expanded back into their semantic types (list of levels, numbers): the
code spreads `menu.metadata` into the record unchanged. -/
theorem C5_counterexample :
    getMenuHistory (fun _ => 0) (oneEntryStore "30") =
      [⟨"m1", some (mdDur "30")⟩] ∧
    (mdDur "30").loadLevels = "A,B" ∧ (mdDur "30").duration = "30" :=
  ⟨rfl, rfl, rfl⟩

/-- C5 amended: `listHistory` returns one flat history record per index
entry — the entry's id merged with its metadata UNCHANGED (the comma-joined
load-level string and the stringified numeric fields are NOT re-expanded) —
sorted non-increasing by creation timestamp (hence strictly descending when
timestamps are distinct), and returns the empty list on any load failure. -/
theorem C5_amended_history_spec (getTime : Option String → Int) (st : Store) :
    List.Perm (getMenuHistory getTime st) ((getIndexData st).menus.map histItem) ∧
    (getMenuHistory getTime st).Pairwise
      (fun a b => histTime getTime b ≤ histTime getTime a) ∧
    (st.pointer = none → getMenuHistory getTime st = []) ∧
    (∀ u, st.pointer = some u → st.indexBlobs u = none →
      getMenuHistory getTime st = []) := by
  refine ⟨perm_sortDescBy _ _, pairwise_sortDescBy _ _, ?_, ?_⟩
  · intro h
    simp [getMenuHistory, getIndexData, h, sortDescBy]
  · intro u hu hb
    by_cases hu0 : u = ""
    · subst hu0
      simp [getMenuHistory, getIndexData, hu, sortDescBy]
    · simp [getMenuHistory, getIndexData, hu, hu0, hb, sortDescBy]

/-- C5 witness: with no pointer set, the history is empty. -/
theorem C5_witness : getMenuHistory (fun _ => 0) emptyStore = [] :=
  (C5_amended_history_spec (fun _ => 0) emptyStore).2.2.1 rfl

/-- An environment in which every write succeeds and URLs are the path
prefixed with `url:`. -/
def okEnv : Env := ⟨fun p => "url:" ++ p, fun _ => false, false⟩

/-- A store already holding an entry whose id `"a"` is a substring of the
id `"ab"` saved next. -/
def preStore : Store :=
  { pointer := some "iu"
    indexBlobs := fun u => if u = "iu" then some ⟨[⟨"a", some (mdDur "30"), "ua"⟩]⟩ else none
    menuBlobs := fun u => if u = "ua" then some docA else none }

/-- C3 counterexample: with the stores functioning, `save("ab", docB)`
succeeds, yet `getById("ab")` returns the PREVIOUSLY saved `docA`: the
loose substring match (`"ab".includes("a")`) selects the first index entry
`"a"`, so the round trip fails as universally stated. -/
theorem C3_counterexample :
    (saveMenu okEnv preStore "t" "ab" docB).map (fun s => getMenu s "ab") =
      Except.ok (some docA) ∧ docA ≠ docB :=
  ⟨rfl, by decide⟩

/-- C3 amended: the round trip holds provided no pre-existing index entry
matches the new id under the loose substring match and the stores function
(the save succeeded and the returned URLs are non-empty): after
`save(id, doc)`, `getById(id)` returns `doc` itself, and the numeric fields
stringified into the new index entry's metadata decode back to the original
numbers under `parseInt`. -/
theorem C3_amended_roundtrip (env : Env) (st st' : Store) (now id : String)
    (doc : MenuDocument)
    (hok : saveMenu env st now id doc = Except.ok st')
    (hnoprior : ∀ m ∈ (getIndexData st).menus, looseMatch m id = false)
    (hurl : env.urlOf ("menus/" ++ id ++ ".json") ≠ "")
    (hidxurl : env.urlOf INDEX_FILE_NAME ≠ "") :
    getMenu st' id = some doc ∧
    (∀ n, doc.duration = some n →
      jsParseInt (mkMetadata now doc).duration = some (n : Int)) ∧
    (∀ n, doc.totalTime = some n →
      jsParseInt (mkMetadata now doc).totalTime = some (n : Int)) := by
  refine ⟨?_, ?_, ?_⟩
  · by_cases h1 : env.blobWriteFails ("menus/" ++ id ++ ".json")
    · simp [saveMenu, h1] at hok
    · by_cases h2 : env.blobWriteFails INDEX_FILE_NAME
      · simp [saveMenu, h1, h2] at hok
      · by_cases h3 : env.pointerSetFails
        · simp [saveMenu, h1, h2, h3] at hok
        · simp only [saveMenu, h1, h2, h3, Bool.false_eq_true, if_false,
            Except.ok.injEq] at hok
          subst hok
          set murl := env.urlOf ("menus/" ++ id ++ ".json") with hmurl
          set iurl := env.urlOf INDEX_FILE_NAME with hiurl
          have hidx : getIndexData { setIndexBlob (setMenuBlob st murl doc) iurl
              ⟨(getIndexData (setMenuBlob st murl doc)).menus ++
                [⟨id, some (mkMetadata now doc), murl⟩]⟩ with pointer := some iurl } =
              ⟨(getIndexData st).menus ++ [⟨id, some (mkMetadata now doc), murl⟩]⟩ := by
            simp [getIndexData, setIndexBlob, setMenuBlob, hidxurl]
          have hmenus : (getIndexData st).menus ++ [⟨id, some (mkMetadata now doc), murl⟩] =
              (getIndexData st).menus ++
                (⟨id, some (mkMetadata now doc), murl⟩ : IndexEntry) :: [] := rfl
          have hfind : findMenuEntry
              ((getIndexData st).menus ++ [⟨id, some (mkMetadata now doc), murl⟩]) id =
              some ⟨id, some (mkMetadata now doc), murl⟩ := by
            rw [hmenus]
            exact find?_append_first _ _ _ (looseMatch_self_id _ _ rfl) hnoprior
          have hne : ((getIndexData st).menus ++
              [(⟨id, some (mkMetadata now doc), murl⟩ : IndexEntry)]).isEmpty = false := by
            cases (getIndexData st).menus <;> rfl
          simp only [getMenu, hidx, hne, Bool.false_eq_true, if_false, hfind]
          rw [if_neg hurl]
          simp [setIndexBlob, setMenuBlob]
  · intro n hn
    have : (mkMetadata now doc).duration = natFieldString (some n) := by
      simp [mkMetadata, hn]
    rw [this]
    exact jsParseInt_natFieldString n
  · intro n hn
    have : (mkMetadata now doc).totalTime = natFieldString (some n) := by
      simp [mkMetadata, hn]
    rw [this]
    exact jsParseInt_natFieldString n

/-- The store produced by a successful save of `docA` under id `"m1"` into
the empty store. -/
def savedStore : Store :=
  match saveMenu okEnv emptyStore "t" "m1" docA with
  | Except.ok s => s
  | Except.error _ => emptyStore

/-- C3 witness: saving into an empty store round-trips, and the stringified
duration decodes back to the original number 30. -/
theorem C3_witness :
    saveMenu okEnv emptyStore "t" "m1" docA = Except.ok savedStore ∧
    getMenu savedStore "m1" = some docA ∧
    jsParseInt (mkMetadata "t" docA).duration = some 30 := by
  have hok : saveMenu okEnv emptyStore "t" "m1" docA = Except.ok savedStore := rfl
  have h := C3_amended_roundtrip okEnv emptyStore savedStore "t" "m1" docA hok
    (by intro m hm; simp [getIndexData, emptyStore] at hm) (by decide) (by decide)
  refine ⟨hok, h.1, ?_⟩
  have := h.2.1 30 rfl
  simpa using this

end SwimApp
